import Mathlib

/-!
Verification of the viam-labs/speech module core: the fuzzy wake-word matcher
(`src/speech/fuzzy_matcher.py`), the trigger dispatch and command buffer logic
(`src/speech/speechio.py`), and the three-stage audio pipeline
(`src/speech/sr_pipeline/`).  Python functions are shallowly embedded as Lean
functions; Python `float` time stamps, confidences and thresholds are modelled
as exact rationals (`ℚ`), and character positions as `Nat` indices into the
list of characters of a string (Python string indexing is by character).
-/

set_option maxRecDepth 40000

namespace Speech

/-! ## Python string primitives used by `fuzzy_matcher.py` and `speechio.py` -/

/-- Python's `\w` character class for ASCII text: letters, digits, underscore
(embedding of the class used by `re.sub(r"[^\w\s']", " ", text)`). -/
def isPyWordChar (c : Char) : Bool :=
  c.isAlphanum || c = '_'

/-- Python's `\s` character class: space, tab, newline, carriage return,
vertical tab, form feed. -/
def isPySpace (c : Char) : Bool :=
  c = ' ' || c = '\t' || c = '\n' || c = '\r' || c = Char.ofNat 11 || c = Char.ofNat 12

/-- The apostrophe character, kept by `_normalize_text` for contractions. -/
def apostrophe : Char := Char.ofNat 39

/-- One character step of `_normalize_text`'s
`re.sub(r"[^\w\s']", " ", text)`: any character that is not a word character,
whitespace, or an apostrophe is replaced by a space. -/
def normalizeChar (c : Char) : Char :=
  if isPyWordChar c || isPySpace c || c = apostrophe then c else ' '

/-- Helper for `pySplit`: walk the characters, accumulating the current word
(reversed); whitespace closes a word, empty pieces are dropped. -/
def splitWordsAux : List Char → List Char → List String
  | [], acc => if acc = [] then [] else [String.mk acc.reverse]
  | c :: cs, acc =>
    if isPySpace c then
      if acc = [] then splitWordsAux cs []
      else String.mk acc.reverse :: splitWordsAux cs []
    else splitWordsAux cs (c :: acc)

/-- Python `str.split()` with no argument: split on runs of whitespace,
discarding empty pieces. -/
def pySplit (s : String) : List String :=
  splitWordsAux s.toList []

/-- Python `str.lower()`, character by character. -/
def pyLower (s : String) : String :=
  String.mk (s.toList.map Char.toLower)

/-- The word list produced by normalizing a string with
`FuzzyWakeWordMatcher._normalize_text` and then calling `.split()`:
lowercase, punctuation (except apostrophes) replaced by spaces, split on
whitespace.  Collapsing/stripping whitespace does not change the word list. -/
def normWords (s : String) : List String :=
  pySplit (String.mk (s.toList.map (fun c => normalizeChar c.toLower)))

/-- `FuzzyWakeWordMatcher._normalize_text`: lowercase, strip punctuation except
apostrophes, collapse whitespace runs to single spaces, strip the ends.  The
result is exactly the normalized words joined by single spaces. -/
def normalizeText (s : String) : String :=
  String.intercalate " " (normWords s)

/-- Python `str.strip()`: remove whitespace from both ends. -/
def pyStrip (s : String) : String :=
  String.mk (((s.toList.dropWhile isPySpace).reverse.dropWhile isPySpace).reverse)

/-- Leading-sequence test: `isLeadingSeq p l` is true when `p` occurs at the
very beginning of `l` (used to embed Python substring search). -/
def isLeadingSeq : List Char → List Char → Bool
  | [], _ => true
  | _ :: _, [] => false
  | a :: as, b :: bs => a = b && isLeadingSeq as bs

/-- Index of the first occurrence of `needle` in `hay`, or `none`
(Python `str.find` with result `-1` modelled as `none`). -/
def firstOccur : List Char → List Char → Option Nat
  | hay, needle =>
    if isLeadingSeq needle hay then some 0
    else
      match hay with
      | [] => none
      | _ :: t => (firstOccur t needle).map (· + 1)

/-- Python `hay.find(needle, start)`: first occurrence at an index `≥ start`. -/
def findFrom (hay needle : List Char) (start : Nat) : Option Nat :=
  (firstOccur (hay.drop start) needle).map (· + start)

/-! ## Data model of `fuzzy_matcher.py` -/

/-- An entry of the `alternatives` list passed to `match_trigger`:
a dict `{"transcript": ..., "confidence": ...}`. -/
structure Alt where
  transcript : String
  confidence : ℚ
deriving DecidableEq, Repr

/-- `TriggerMatch` from `fuzzy_matcher.py`: result of a successful trigger
phrase match. -/
structure TriggerMatch where
  matched : Bool
  distance : Nat
  confidence : ℚ
  matchedPhrase : String
  matchStartPos : Nat
  matchEndPos : Nat
  commandText : String
  alternativeIndex : Nat
  triggerType : String := ""
deriving DecidableEq, Repr

/-- `FuzzyWakeWordMatcher`: all state is the immutable clamped threshold. -/
structure FuzzyWakeWordMatcher where
  threshold : Nat
deriving DecidableEq, Repr

/-- The clamp in `FuzzyWakeWordMatcher.__init__`:
`self.threshold = max(0, min(5, threshold))`. -/
def clampThreshold (t : Int) : Int := max 0 (min 5 t)

/-- Construct a matcher from a configured (integer) threshold, as
`FuzzyWakeWordMatcher.__init__` does. -/
def mkMatcher (t : Int) : FuzzyWakeWordMatcher :=
  ⟨(clampThreshold t).toNat⟩

/-- Levenshtein distance between two strings with unit costs, as computed by
`rapidfuzz.distance.Levenshtein.distance` in `_match_single_transcript`. -/
def lev (a b : String) : Nat :=
  levenshtein Levenshtein.defaultCost a.toList b.toList

/-- The `(num_words, i)` pairs visited by the window-search loops of
`_match_single_transcript`, in iteration order: `num_words` ranges over
`range(max(1, len(trigger_words) - 1), len(trigger_words) + 2)` and `i` over
`range(len(transcript_words) - num_words + 1)` (empty when
`num_words > len(transcript_words)`, as the Python range is then empty). -/
def windowCandidates (twlen wlen : Nat) : List (Nat × Nat) :=
  (List.range' (max 1 (twlen - 1)) (twlen + 2 - max 1 (twlen - 1))).flatMap
    (fun numWords =>
      if numWords ≤ wlen then
        (List.range (wlen - numWords + 1)).map (fun i => (numWords, i))
      else [])

/-- Best-match tracking state of `_match_single_transcript`:
`(best_distance, best_position, best_word_count)` with `best_position = -1`
modelled as `none`. -/
structure BestTrack where
  bestDistance : Nat
  bestPosition : Option Nat
  bestWordCount : Nat
deriving DecidableEq, Repr

/-- One step of the window loop: compute the window's joined text, its
Levenshtein distance to the normalized trigger, and keep it if strictly
better than the best so far (ties favour the earlier window). -/
def updateBest (ntrig : String) (words : List String) (b : BestTrack)
    (c : Nat × Nat) : BestTrack :=
  let windowText := String.intercalate " " ((words.drop c.2).take c.1)
  let d := lev ntrig windowText
  if d < b.bestDistance then ⟨d, some c.2, c.1⟩ else b

/-- The full window search of `_match_single_transcript`: fold over all
windows starting from `(threshold + 1, -1, len(trigger_words))`. -/
def bestWindow (th : Nat) (ntrig : String) (twlen : Nat)
    (words : List String) : BestTrack :=
  (windowCandidates twlen words.length).foldl (updateBest ntrig words)
    ⟨th + 1, none, twlen⟩

/-- `_find_word_positions_in_original`: map the matched normalized words back
to character positions in the original transcript. -/
def findWordPositions (original : String) (matchedWords : List String)
    (wordPosition : Nat) : Nat × Nat :=
  let allWords := normWords original
  let matchedText := String.intercalate " " matchedWords
  let fallback :=
    let normalizedLower := pyLower (normalizeText original)
    match findFrom normalizedLower.toList matchedText.toList 0 with
    | some idx => (idx, idx + matchedText.length)
    | none => (0, matchedText.length)
  if wordPosition < allWords.length then
    let wordsBefore := allWords.take wordPosition
    let textBefore := String.intercalate " " wordsBefore
    let originalLower := pyLower original
    let searchStart :=
      if wordsBefore ≠ [] then
        match findFrom originalLower.toList (pyLower textBefore).toList 0 with
        | some beforeIdx => beforeIdx + textBefore.length
        | none => 0
      else 0
    match findFrom originalLower.toList (pyLower matchedText).toList searchStart with
    | some matchIdx => (matchIdx, matchIdx + matchedText.length)
    | none => fallback
  else fallback

/-- `_match_single_transcript`: match the pre-normalized trigger against one
transcript using word-boundary windows. -/
def matchSingle (self : FuzzyWakeWordMatcher) (normalizedTrigger : String)
    (transcript : String) (confidence : ℚ) (altIndex : Nat) :
    Option TriggerMatch :=
  let triggerWords := pySplit normalizedTrigger
  let transcriptWords := pySplit (normalizeText transcript)
  if triggerWords = [] ∨ transcriptWords = [] then none
  else
    match bestWindow self.threshold normalizedTrigger triggerWords.length
        transcriptWords with
    | ⟨_, none, _⟩ => none
    | ⟨bestDistance, some bestPosition, bestWordCount⟩ =>
      if self.threshold < bestDistance then none
      else
        let matchedWords := (transcriptWords.drop bestPosition).take bestWordCount
        let pos := findWordPositions transcript matchedWords bestPosition
        let commandText := pyStrip (String.mk (transcript.toList.drop pos.2))
        let matchedPhrase :=
          pyStrip (String.mk ((transcript.toList.drop pos.1).take (pos.2 - pos.1)))
        some { matched := true, distance := bestDistance,
               confidence := confidence, matchedPhrase := matchedPhrase,
               matchStartPos := pos.1, matchEndPos := pos.2,
               commandText := commandText, alternativeIndex := altIndex }

/-- Stable descending insertion by confidence, embedding Python's stable
`sorted(..., key=lambda x: x[1].get("confidence", 0.0), reverse=True)`:
an element inserted in front of an equal-confidence element only if strictly
greater, so original order is kept among equal keys. -/
def insertByConfDesc (p : Nat × Alt) : List (Nat × Alt) → List (Nat × Alt)
  | [] => [p]
  | q :: qs =>
    if q.2.confidence ≤ p.2.confidence then p :: q :: qs
    else q :: insertByConfDesc p qs

/-- Stable sort of `(original_index, alternative)` pairs by descending
confidence. -/
def sortByConfDesc (l : List (Nat × Alt)) : List (Nat × Alt) :=
  l.foldr insertByConfDesc []

/-- The alternatives loop of `match_trigger`: walk the (already sorted and
capped) candidates, skipping empty transcripts and confidences `< 0.5`, and
return the first single-transcript match. -/
def tryAlternatives (self : FuzzyWakeWordMatcher) (normalizedTrigger : String) :
    List (Nat × Alt) → Option TriggerMatch
  | [] => none
  | (idx, alt) :: rest =>
    if alt.transcript = "" ∨ alt.confidence < 1/2 then
      tryAlternatives self normalizedTrigger rest
    else
      match matchSingle self normalizedTrigger alt.transcript alt.confidence idx with
      | some m => some m
      | none => tryAlternatives self normalizedTrigger rest

/-- `FuzzyWakeWordMatcher.match_trigger`: try the primary transcript (with
confidence `1.0`, index `0`) first; only if it produces no match, try up to
four alternatives (indices `1, 2, ...` of the input list) in descending
confidence order.  A `None`/empty alternatives argument behaves like a list of
length `≤ 1` (the guard `alternatives and len(alternatives) > 1`). -/
def FuzzyWakeWordMatcher.matchTrigger (self : FuzzyWakeWordMatcher)
    (triggerPhrase transcript : String) (alternatives : List Alt) :
    Option TriggerMatch :=
  if triggerPhrase = "" ∨ transcript = "" then none
  else
    match matchSingle self (normalizeText triggerPhrase) transcript 1 0 with
    | some m => some m
    | none =>
      if 1 < alternatives.length then
        tryAlternatives self (normalizeText triggerPhrase)
          ((sortByConfDesc (List.enumFrom 1 (alternatives.drop 1))).take 4)
      else none

/-! ## Command buffer and trigger dispatch (`speechio.py`) -/

/-- Command insertion as done by `_handle_trigger_match` and the regex
branches of `listen_callback`/`vosk_vad_callback`:
`command_list.insert(0, x)` followed by
`del command_list[listen_command_buffer_length:]`. -/
def insertCommand (bufLen : Nat) (x : String) (commandList : List String) :
    List String :=
  (x :: commandList).take bufLen

/-- `get_commands(number)`: return `command_list[0:number]` and delete that
slice from the buffer; the result pairs the returned commands with the
buffer's new contents. -/
def getCommands (number : Nat) (commandList : List String) :
    List String × List String :=
  (commandList.take number, commandList.drop number)

/-- The validation step of `reconfigure` for
`listen_trigger_fuzzy_threshold`: an out-of-range value is replaced by the
default `2` (with a warning); an in-range value is kept. -/
def reconfigureFuzzyThreshold (t : Int) : Int :=
  if 0 ≤ t ∧ t ≤ 5 then t else 2

/-- The configuration attributes of `SpeechIOService` relevant to trigger
dispatch. -/
structure SpeechConfig where
  shouldListen : Bool
  listenTriggerAll : Bool
  bufLen : Nat
  fuzzyThreshold : Int
  triggerSay : String
  triggerCompletion : String
  triggerCommand : String
deriving Repr

/-- The mutable dispatch state of `SpeechIOService`. -/
structure SpeechState where
  commandList : List String
  triggerActive : Bool
  activeTriggerType : String
deriving DecidableEq, Repr

/-- External calls made by the dispatcher (fire-and-forget coroutines and the
background-listener close). -/
inductive Effect where
  | sayText (text : String)
  | completionText (text : String)
  | stopListening
deriving DecidableEq, Repr

/-- The matcher `reconfigure` builds: the validated threshold fed to
`FuzzyWakeWordMatcher.__init__`. -/
def SpeechConfig.matcher (cfg : SpeechConfig) : FuzzyWakeWordMatcher :=
  mkMatcher (reconfigureFuzzyThreshold cfg.fuzzyThreshold)

/-- The loop body of `_check_fuzzy_triggers` over the
`(trigger_type, trigger_phrase)` pairs: a category is checked when
continuous listen is on or a one-shot arm names this category; the first
category whose fuzzy match succeeds wins and its type is written into the
match. -/
def checkTriggersAux (matcher : FuzzyWakeWordMatcher) (cfg : SpeechConfig)
    (st : SpeechState) (heard : String) (alternatives : List Alt) :
    List (String × String) → Option TriggerMatch
  | [] => none
  | (ttype, phrase) :: rest =>
    let shouldCheck :=
      cfg.shouldListen || (st.triggerActive && st.activeTriggerType == ttype)
    if shouldCheck then
      match matcher.matchTrigger phrase heard alternatives with
      | some m => some { m with triggerType := ttype }
      | none => checkTriggersAux matcher cfg st heard alternatives rest
    else checkTriggersAux matcher cfg st heard alternatives rest

/-- `_check_fuzzy_triggers`: try `say`, `completion`, `command` in that fixed
order. -/
def checkFuzzyTriggers (cfg : SpeechConfig) (st : SpeechState)
    (heard : String) (alternatives : List Alt) : Option TriggerMatch :=
  checkTriggersAux cfg.matcher cfg st heard alternatives
    [("say", cfg.triggerSay), ("completion", cfg.triggerCompletion),
     ("command", cfg.triggerCommand)]

/-- `_handle_trigger_match`: unconditionally clear the one-shot arm, then
dispatch on the matched trigger type; a `command` match inserts the extracted
command text at the front of the bounded buffer; when continuous listen is
off, the background listener is closed. -/
def handleTriggerMatch (cfg : SpeechConfig) (m : TriggerMatch)
    (st : SpeechState) : SpeechState × List Effect :=
  let st1 : SpeechState := { st with triggerActive := false }
  let r :=
    if m.triggerType = "say" then (st1, [Effect.sayText m.commandText])
    else if m.triggerType = "completion" then
      (st1, [Effect.completionText m.commandText])
    else if m.triggerType = "command" then
      ({ st1 with
          commandList := insertCommand cfg.bufLen m.commandText st1.commandList },
        ([] : List Effect))
    else (st1, [])
  if cfg.shouldListen then r else (r.1, r.2 ++ [Effect.stopListening])

/-- Embedding of `re.search(".*" + trigger, text, re.IGNORECASE)` for a
trigger phrase free of regex metacharacters (the configured phrases are plain
words): the search succeeds exactly when the lowered trigger occurs in the
lowered text. -/
def regexTriggerFound (trigger text : String) : Bool :=
  (firstOccur (pyLower text).toList (pyLower trigger).toList).isSome

/-- Embedding of
`re.sub(".*" + trigger + r"\s+", "", text, flags=re.IGNORECASE)` for a
metacharacter-free trigger in a newline-free transcript: the greedy `.*`
selects the rightmost occurrence of the trigger that is followed by
whitespace, the greedy `\s+` then swallows the whitespace run, and everything
up to that point is deleted.  When the trigger never occurs followed by
whitespace, the text is unchanged. -/
def reSubTriggerStrip (trigger text : String) : String :=
  let tl := (pyLower trigger).toList
  let sl := text.toList
  let sll := (pyLower text).toList
  let isCand := fun i =>
    isLeadingSeq tl (sll.drop i) &&
      (match sll.drop (i + tl.length) with
       | c :: _ => isPySpace c
       | [] => false)
  match ((List.range (sl.length + 1)).filter isCand).getLast? with
  | none => text
  | some i => String.mk ((sl.drop (i + tl.length)).dropWhile isPySpace)

/-- The regex-based dispatch shared by the tail of `listen_callback` and
`vosk_vad_callback`: try `say`, `completion`, `command` with
substring/one-shot activation, then the `listen_trigger_all` fallback that
inserts the whole transcript unstripped. -/
def regexDispatch (cfg : SpeechConfig) (st : SpeechState) (heard : String) :
    SpeechState × List Effect :=
  if heard ≠ "" then
    if (cfg.shouldListen && regexTriggerFound cfg.triggerSay heard) ||
        (st.triggerActive && st.activeTriggerType == "say") then
      ({ st with triggerActive := false },
       [Effect.sayText (reSubTriggerStrip cfg.triggerSay heard)])
    else if (cfg.shouldListen && regexTriggerFound cfg.triggerCompletion heard) ||
        (st.triggerActive && st.activeTriggerType == "completion") then
      ({ st with triggerActive := false },
       [Effect.completionText (reSubTriggerStrip cfg.triggerCompletion heard)])
    else if (cfg.shouldListen && regexTriggerFound cfg.triggerCommand heard) ||
        (st.triggerActive && st.activeTriggerType == "command") then
      ({ st with
          triggerActive := false,
          commandList :=
            insertCommand cfg.bufLen (reSubTriggerStrip cfg.triggerCommand heard)
              st.commandList }, [])
    else if cfg.shouldListen && cfg.listenTriggerAll then
      ({ st with
          commandList := insertCommand cfg.bufLen heard st.commandList }, [])
    else (st, [])
  else (st, [])

/-- The fuzzy-matching branch of `listen_callback` (taken whenever
`listen_trigger_fuzzy_matching` is enabled and the matcher exists), after the
STT call produced `(heard, alternatives)`: for a non-empty transcript the
fuzzy triggers are checked and the callback returns immediately afterwards —
with or without a match — so the regex section and the `listen_trigger_all`
fallback are never reached; for an empty transcript control falls through to
the final close-listener check. -/
def listenCallbackFuzzy (cfg : SpeechConfig) (st : SpeechState)
    (heard : String) (alternatives : List Alt) : SpeechState × List Effect :=
  if heard ≠ "" then
    match checkFuzzyTriggers cfg st heard alternatives with
    | some m => handleTriggerMatch cfg m st
    | none => (st, [])
  else
    (st, if cfg.shouldListen then [] else [Effect.stopListening])

/-- `vosk_vad_callback` for a recognized text: with fuzzy matching enabled a
fuzzy match is handled and ends the callback, but — unlike
`listen_callback` — a fuzzy miss falls through to the regex dispatch
(including the `listen_trigger_all` fallback).  Vosk provides no
alternatives. -/
def voskVadCallback (cfg : SpeechConfig) (fuzzyEnabled : Bool)
    (st : SpeechState) (text : String) : SpeechState × List Effect :=
  if text ≠ "" && fuzzyEnabled then
    match checkFuzzyTriggers cfg st text [] with
    | some m => handleTriggerMatch cfg m st
    | none => regexDispatch cfg st text
  else regexDispatch cfg st text

/-! ## Audio pipeline data types (`sr_pipeline/types.py`) -/

/-- `AudioChunk`: raw PCM bytes with capture metadata; the monotonic float
timestamp is modelled as an exact rational. -/
structure AudioChunk where
  data : List Nat
  timestamp : ℚ
  sampleRate : Nat
  sampleWidth : Nat
deriving DecidableEq, Repr

/-- `Utterance`: a completed speech segment; `audio` is the concatenated PCM
of its chunks. -/
structure Utterance where
  audio : List Nat
  startTime : ℚ
  endTime : ℚ
deriving DecidableEq, Repr

/-- `Utterance.duration` property. -/
def Utterance.duration (u : Utterance) : ℚ := u.endTime - u.startTime

/-- `VADResult`: per-chunk speech verdict with confidence. -/
structure VADResult where
  isSpeech : Bool
  confidence : ℚ := 1
deriving DecidableEq, Repr

/-- `PipelineMetrics`: the pipeline's monotone counters. -/
structure PipelineMetrics where
  chunksCaptured : Nat := 0
  chunksDropped : Nat := 0
  utterancesDetected : Nat := 0
  utterancesTranscribed : Nat := 0
  transcriptionErrors : Nat := 0
deriving DecidableEq, Repr

/-- `PipelineMetrics.drop_rate` property with its divide-by-zero guard. -/
def PipelineMetrics.dropRate (m : PipelineMetrics) : ℚ :=
  let total := m.chunksCaptured + m.chunksDropped
  if 0 < total then (m.chunksDropped : ℚ) / (total : ℚ) else 0

/-! ## Capture loop (`_capture_loop`) -/

/-- The metrics effect of one successfully read frame in `_capture_loop`:
`put_nowait` either succeeds (`enqueued = true`, `chunks_captured += 1`) or
raises `queue.Full` (`enqueued = false`, `chunks_dropped += 1`). -/
def captureStep (enqueued : Bool) (m : PipelineMetrics) : PipelineMetrics :=
  if enqueued then { m with chunksCaptured := m.chunksCaptured + 1 }
  else { m with chunksDropped := m.chunksDropped + 1 }

/-- The metrics after a sequence of successfully read frames, each tagged with
whether its non-blocking enqueue succeeded. -/
def captureRun (events : List Bool) (m : PipelineMetrics) : PipelineMetrics :=
  events.foldl (fun acc e => captureStep e acc) m

/-! ## EnergyVAD (`sr_pipeline/energy_vad.py`) -/

/-- `EnergyVAD` state: static threshold, dynamic-calibration flag, ambient
estimate and calibration counter. -/
structure EnergyVAD where
  threshold : ℚ
  dynamic : Bool
  ambientEnergy : Option ℚ := none
  samplesSeen : Nat := 0
deriving DecidableEq, Repr

/-- The ambient estimate `EnergyVAD.process` would use for a chunk of the
given RMS energy: seeded with the first energy, then updated by the
exponential moving average `0.9 * ambient + 0.1 * energy`. -/
def EnergyVAD.nextAmbient (v : EnergyVAD) (energy : ℚ) : ℚ :=
  match v.ambientEnergy with
  | none => energy
  | some a => 9/10 * a + 1/10 * energy

/-- The effective threshold `EnergyVAD.process` compares against: during the
first 50 chunks of dynamic calibration it is
`max(threshold, ambient * 1.5)`, afterwards the static threshold. -/
def EnergyVAD.effectiveThreshold (v : EnergyVAD) (energy : ℚ) : ℚ :=
  if v.dynamic ∧ v.samplesSeen < 50 then
    max v.threshold (v.nextAmbient energy * 3/2)
  else v.threshold

/-- `EnergyVAD.process`, with the chunk abstracted by its RMS energy
`np.sqrt(np.mean(samples ** 2))` (a nonnegative real that only enters the
logic through comparisons and one division).  Returns the updated VAD state
and the `VADResult`: `is_speech = energy > effective_threshold` and
`confidence = min(1, energy / effective_threshold)` for speech, else `0`. -/
def EnergyVAD.processEnergy (v : EnergyVAD) (energy : ℚ) :
    EnergyVAD × VADResult :=
  let eff := v.effectiveThreshold energy
  let v' :=
    if v.dynamic ∧ v.samplesSeen < 50 then
      { v with ambientEnergy := some (v.nextAmbient energy),
               samplesSeen := v.samplesSeen + 1 }
    else v
  let isSpeech := eff < energy
  (v', { isSpeech := isSpeech,
         confidence := if isSpeech then min 1 (energy / eff) else 0 })

/-! ## Utterance segmentation FSM (`_detect_loop`) -/

/-- Hardcoded POC configuration of `pipeline.py` (floats are exact here). -/
def silenceTimeout : ℚ := 8/10

/-- `MAX_SPEECH_DURATION = 30.0` seconds. -/
def maxSpeechDuration : ℚ := 30

/-- `padding_frames = int(SPEECH_PADDING * 1000 / FRAME_DURATION_MS)`
(`= int(0.3 * 1000 / 30) = 10`), and the deque capacity is
`max(1, padding_frames)`. -/
def paddingMaxlen : Nat := max 1 (300 / 30)

/-- `collections.deque(maxlen=n).append`: append on the right, dropping from
the left when over capacity. -/
def dequeAppend (maxlen : Nat) (buf : List AudioChunk) (c : AudioChunk) :
    List AudioChunk :=
  let b := buf ++ [c]
  b.drop (b.length - maxlen)

/-- The segmenter's mode: `"idle"`, or `"speaking"` together with the
`speech_start_time` and `last_speech_time` floats that are always set while
speaking. -/
inductive SegMode where
  | idle
  | speaking (speechStartTime lastSpeechTime : ℚ)
deriving DecidableEq, Repr

/-- The `_detect_loop` thread-local state: FSM mode, padding ring buffer, and
the in-progress utterance's chunk list. -/
structure SegState where
  mode : SegMode
  paddingBuffer : List AudioChunk
  utteranceChunks : List AudioChunk
deriving DecidableEq, Repr

/-- `_emit_utterance`: package the chunks (concatenated PCM) as an
`Utterance`; an empty chunk list emits nothing. -/
def emitUtterance (chunks : List AudioChunk) (start stop : ℚ) :
    Option Utterance :=
  if chunks = [] then none
  else some { audio := chunks.flatMap AudioChunk.data, startTime := start,
              endTime := stop }

/-- One iteration of the `_detect_loop` FSM on a dequeued chunk with its VAD
verdict.  Idle: push into the padding buffer; on speech, enter `speaking`
seeded with the padding contents.  Speaking: append the chunk, refresh
`last_speech_time` on speech, then emit and return to idle when the trailing
silence reaches `SILENCE_TIMEOUT` or the segment length reaches
`MAX_SPEECH_DURATION` (clearing the padding buffer; the VAD reset is a
no-op). -/
def detectStep (st : SegState) (chunk : AudioChunk) (isSpeech : Bool) :
    SegState × Option Utterance :=
  let now := chunk.timestamp
  match st.mode with
  | SegMode.idle =>
    let pb := dequeAppend paddingMaxlen st.paddingBuffer chunk
    if isSpeech then
      ({ mode := SegMode.speaking now now, paddingBuffer := pb,
         utteranceChunks := pb }, none)
    else ({ st with paddingBuffer := pb }, none)
  | SegMode.speaking speechStartTime lastSpeechTime =>
    let uc := st.utteranceChunks ++ [chunk]
    let last := if isSpeech then now else lastSpeechTime
    let silenceDuration := now - last
    let speechDuration := now - speechStartTime
    if silenceTimeout ≤ silenceDuration ∨ maxSpeechDuration ≤ speechDuration then
      ({ mode := SegMode.idle, paddingBuffer := [], utteranceChunks := [] },
       emitUtterance uc speechStartTime now)
    else
      ({ mode := SegMode.speaking speechStartTime last,
         paddingBuffer := st.paddingBuffer, utteranceChunks := uc }, none)

/-! ## Concrete configurations used by witnesses and counterexamples -/

/-- The default trigger configuration of `reconfigure`
(`"robot say"`, `"hey robot"`, `"robot can you"`, buffer length 10,
fuzzy threshold 2) with continuous listen and `listen_trigger_all` on. -/
def defaultTriggerConfig : SpeechConfig :=
  { shouldListen := true, listenTriggerAll := true, bufLen := 10,
    fuzzyThreshold := 2, triggerSay := "robot say",
    triggerCompletion := "hey robot", triggerCommand := "robot can you" }

/-- Dispatch state with an empty command buffer and no armed trigger. -/
def emptyDispatchState : SpeechState :=
  { commandList := [], triggerActive := false, activeTriggerType := "" }

/-- Dispatch state with a one-shot `command` trigger armed. -/
def armedCommandState : SpeechState :=
  { commandList := ["queued"], triggerActive := true,
    activeTriggerType := "command" }

/-- The alternatives list of the `FuzzyWakeWordMatcher` docstring example:
primary transcript repeated at index 0 with confidence 0.9, the exact trigger
at index 1 with confidence 0.95, and a lower-confidence variant at index 2. -/
def docstringAlternatives : List Alt :=
  [⟨"hey robotic turn on lights", 9/10⟩,
   ⟨"hey robot turn on lights", 19/20⟩,
   ⟨"hey robbed turn on lights", 3/4⟩]

/-- Two silent-ish audio chunks used by the segmenter witness. -/
def chunkA : AudioChunk := { data := [0, 0], timestamp := 0, sampleRate := 16000, sampleWidth := 2 }

/-- A second chunk one second later. -/
def chunkB : AudioChunk := { data := [1, 2], timestamp := 1, sampleRate := 16000, sampleWidth := 2 }

/-! ## Theorems -/

/-- Helper: one capture iteration adds exactly one to the sum of the two
counters and leaves the other counters alone. -/
theorem captureStep_sum (e : Bool) (m : PipelineMetrics) :
    (captureStep e m).chunksCaptured + (captureStep e m).chunksDropped =
      m.chunksCaptured + m.chunksDropped + 1 ∧
    m.chunksCaptured ≤ (captureStep e m).chunksCaptured ∧
    m.chunksDropped ≤ (captureStep e m).chunksDropped := by
  cases e <;> simp [captureStep] <;> omega

/-- Helper: accounting and monotonicity for a whole capture trace. -/
theorem captureRun_spec (events : List Bool) : ∀ m : PipelineMetrics,
    (captureRun events m).chunksCaptured + (captureRun events m).chunksDropped =
      m.chunksCaptured + m.chunksDropped + events.length ∧
    m.chunksCaptured ≤ (captureRun events m).chunksCaptured ∧
    m.chunksDropped ≤ (captureRun events m).chunksDropped := by
  induction events with
  | nil => intro m; simp [captureRun]
  | cons e es ih =>
    intro m
    have hsum := captureStep_sum e m
    have hrec := ih (captureStep e m)
    have hrun : captureRun (e :: es) m = captureRun es (captureStep e m) := rfl
    rw [hrun]
    refine ⟨?_, le_trans hsum.2.1 hrec.2.1, le_trans hsum.2.2 hrec.2.2⟩
    rw [hrec.1, hsum.1]
    simp [Nat.add_assoc, Nat.add_comm, Nat.add_left_comm]

/-- C7: every successfully read frame increments exactly one of
`chunks_captured` (enqueue succeeded) and `chunks_dropped` (queue full); over
any capture trace the two counters sum to the initial sum plus the number of
frames read, and both are monotonically non-decreasing. -/
theorem C7_capture_counters (events : List Bool) (m : PipelineMetrics) :
    (captureRun events m).chunksCaptured + (captureRun events m).chunksDropped =
      m.chunksCaptured + m.chunksDropped + events.length ∧
    m.chunksCaptured ≤ (captureRun events m).chunksCaptured ∧
    m.chunksDropped ≤ (captureRun events m).chunksDropped ∧
    ∀ e : Bool,
      ((captureStep e m).chunksCaptured = m.chunksCaptured + 1 ∧
        (captureStep e m).chunksDropped = m.chunksDropped) ∨
      ((captureStep e m).chunksDropped = m.chunksDropped + 1 ∧
        (captureStep e m).chunksCaptured = m.chunksCaptured) := by
  refine ⟨(captureRun_spec events m).1, (captureRun_spec events m).2.1,
    (captureRun_spec events m).2.2, ?_⟩
  intro e
  cases e
  · right; simp [captureStep]
  · left; simp [captureStep]

/-- C1 counterexample: after inserting `"a"` then `"b"`, the buffer
(newest-first) is `["b", "a"]`; `get_commands(1)` returns `["b"]`, the
newest-inserted command, while the oldest-inserted command still present is
`"a"` — so the returned list is not the oldest-inserted one the claim
promises. -/
theorem C1_counterexample :
    insertCommand 10 "b" (insertCommand 10 "a" []) = ["b", "a"] ∧
    getCommands 1 ["b", "a"] = (["b"], ["a"]) ∧
    (["b"] : List String) ≠ ["a"] := by
  refine ⟨rfl, rfl, by decide⟩

/-- C1 (amended): `get_commands(n)` returns up to `n` of the newest-inserted
commands still present (a front slice of the newest-first buffer, whose head
after an insertion is the newly inserted command), removes exactly the
returned items, and — for a duplicate-free buffer — a subsequent
`get_commands` never returns any of them again. -/
theorem C1_getCommands_newest_and_removed (cl : List String) (n : Nat) :
    ((getCommands n cl).1).length ≤ n ∧
    (getCommands n cl).1 ++ (getCommands n cl).2 = cl ∧
    (∀ (b : Nat) (x : String), 0 < b →
      (insertCommand b x cl).head? = some x) ∧
    (cl.Nodup → ∀ x ∈ (getCommands n cl).1, ∀ m,
      x ∉ (getCommands m ((getCommands n cl).2)).1) := by
  refine ⟨?_, ?_, ?_, ?_⟩
  · simp [getCommands]
  · simp [getCommands]
  · intro b x hb
    cases b with
    | zero => omega
    | succ k => simp [insertCommand]
  · intro hnd x hx m hx2
    have hdisj : List.Disjoint (cl.take n) (cl.drop n) :=
      List.disjoint_take_drop hnd le_rfl
    have hx' : x ∈ cl.take n := by simpa [getCommands] using hx
    have hx2' : x ∈ cl.drop n := by
      have : x ∈ (cl.drop n).take m := by simpa [getCommands] using hx2
      exact List.take_subset m (cl.drop n) this
    exact hdisj hx' hx2'

/-- C1 witness for the amended theorem's hypotheses: in the buffer
`["b", "a"]`, the head after inserting `"c"` is `"c"`, and the command
`"b"` taken by `get_commands(1)` is not returned by the subsequent
`get_commands(1)`. -/
theorem C1_witness :
    (insertCommand 10 "c" (["b", "a"] : List String)).head? = some "c" ∧
    "b" ∉ (getCommands 1 ((getCommands 1 (["b", "a"] : List String)).2)).1 := by
  have h := C1_getCommands_newest_and_removed ["b", "a"] 1
  exact ⟨h.2.2.1 10 "c" (by decide), h.2.2.2 (by decide) "b" (by decide) 1⟩

/-- C4 counterexample: for the configured threshold `7`, `reconfigure`
replaces it with the default `2` — not the clamped `5` the claim promises —
and the matcher is then built with threshold `2`.  (The constructor's own
clamp would indeed map `7` to `5`, but configuration never exercises it on an
out-of-range value.) -/
theorem C4_counterexample :
    reconfigureFuzzyThreshold 7 = 2 ∧
    (mkMatcher (reconfigureFuzzyThreshold 7)).threshold = 2 ∧
    (2 : Int) ≠ 5 ∧
    clampThreshold 7 = 5 := by
  refine ⟨by decide, by decide, by decide, by decide⟩

/-- C4 (amended): a configured fuzzy threshold outside `[0, 5]` is replaced
by the default `2` with a warning rather than failing, and the matcher then
operates with threshold `2`; the matcher constructor's own clamp maps `7` to
`5` and `-1` to `0`, and always lands in `[0, 5]`. -/
theorem C4_out_of_range_resets_to_default (t : Int)
    (h : ¬(0 ≤ t ∧ t ≤ 5)) :
    reconfigureFuzzyThreshold t = 2 ∧
    (mkMatcher (reconfigureFuzzyThreshold t)).threshold = 2 ∧
    clampThreshold 7 = 5 ∧ clampThreshold (-1) = 0 ∧
    ∀ u : Int, 0 ≤ clampThreshold u ∧ clampThreshold u ≤ 5 := by
  have hr : reconfigureFuzzyThreshold t = 2 := by
    simp [reconfigureFuzzyThreshold, h]
  refine ⟨hr, by rw [hr]; decide, by decide, by decide, ?_⟩
  intro u
  constructor
  · exact le_max_left 0 (min 5 u)
  · exact max_le (by decide) (min_le_left 5 u)

/-- C4 witness: the amended theorem applied at the configured value `7`. -/
theorem C4_witness :
    reconfigureFuzzyThreshold 7 = 2 ∧
    (mkMatcher (reconfigureFuzzyThreshold 7)).threshold = 2 := by
  have h := C4_out_of_range_resets_to_default 7 (by decide)
  exact ⟨h.1, h.2.1⟩

/-- C8: after any of the command-buffer mutations — an insertion (trigger
match or `listen_trigger_all` fallback), a `get_commands` drain, or a full
`_handle_trigger_match` — the buffer's length stays within the configured
capacity, provided it was within it before. -/
theorem C8_buffer_bounded (b n : Nat) (cl : List String) (x : String)
    (cfg : SpeechConfig) (m : TriggerMatch) (st : SpeechState)
    (hcl : cl.length ≤ b) (hst : st.commandList.length ≤ cfg.bufLen) :
    (insertCommand b x cl).length ≤ b ∧
    ((getCommands n cl).2).length ≤ b ∧
    ((handleTriggerMatch cfg m st).1.commandList).length ≤ cfg.bufLen := by
  have hins : ∀ (b' : Nat) (y : String) (l : List String),
      (insertCommand b' y l).length ≤ b' := by
    intro b' y l
    simp [insertCommand]
  refine ⟨hins b x cl, ?_, ?_⟩
  · have := List.length_drop n cl
    simp [getCommands]
    omega
  · unfold handleTriggerMatch
    repeat' split
    all_goals first
      | exact hst
      | simp_all [hins]

/-- C8 witness: a full buffer of capacity 2 stays within capacity under an
insertion and a drain, and a `say`-type handled match leaves it unchanged. -/
theorem C8_witness :
    (insertCommand 2 "c" ["b", "a"]).length ≤ 2 ∧
    ((getCommands 1 (["b", "a"] : List String)).2).length ≤ 2 := by
  have h := C8_buffer_bounded 2 1 ["b", "a"] "c" defaultTriggerConfig
    { matched := true, distance := 0, confidence := 1, matchedPhrase := "",
      matchStartPos := 0, matchEndPos := 0, commandText := "", alternativeIndex := 0,
      triggerType := "say" }
    emptyDispatchState (by decide) (by decide)
  exact ⟨h.1, h.2.1⟩

/-- C9: whenever the effective threshold is positive, `EnergyVAD.process`
returns a confidence of exactly `0` or exactly `1`: speech requires
`energy > effective_threshold`, so `energy / effective_threshold > 1` and
`min(1, ·)` is `1`; non-speech returns `0`. -/
theorem C9_confidence_zero_or_one (v : EnergyVAD) (energy : ℚ)
    (h : 0 < v.effectiveThreshold energy) :
    (v.processEnergy energy).2.confidence = 0 ∨
    (v.processEnergy energy).2.confidence = 1 := by
  by_cases hs : v.effectiveThreshold energy < energy
  · right
    have h1 : (1 : ℚ) ≤ energy / v.effectiveThreshold energy :=
      (one_le_div h).mpr hs.le
    simp [EnergyVAD.processEnergy, hs, min_eq_left h1]
  · left
    simp [EnergyVAD.processEnergy, hs]

/-- Helper: a single-transcript match is marked matched and its distance is
within the matcher's threshold (the guard
`best_distance > self.threshold or best_position == -1` rejects everything
else). -/
theorem matchSingle_bound (self : FuzzyWakeWordMatcher)
    (normalizedTrigger transcript : String) (conf : ℚ) (altIndex : Nat)
    (m : TriggerMatch)
    (h : matchSingle self normalizedTrigger transcript conf altIndex = some m) :
    m.matched = true ∧ m.distance ≤ self.threshold := by
  unfold matchSingle at h
  dsimp only at h
  split at h
  · exact absurd h (by simp)
  · split at h
    · exact absurd h (by simp)
    · rename_i bestDistance bestPosition bestWordCount heq
      split at h
      · exact absurd h (by simp)
      · rename_i hle
        cases h
        exact ⟨rfl, Nat.not_lt.mp hle⟩

/-- Helper: any match produced by the alternatives loop comes from
`matchSingle`, so it inherits the threshold bound. -/
theorem tryAlternatives_bound (self : FuzzyWakeWordMatcher)
    (normalizedTrigger : String) :
    ∀ (l : List (Nat × Alt)) (m : TriggerMatch),
      tryAlternatives self normalizedTrigger l = some m →
      m.matched = true ∧ m.distance ≤ self.threshold := by
  intro l
  induction l with
  | nil => intro m h; exact absurd h (by simp [tryAlternatives])
  | cons p rest ih =>
    intro m h
    obtain ⟨idx, alt⟩ := p
    unfold tryAlternatives at h
    split at h
    · exact ih m h
    · cases hm : matchSingle self normalizedTrigger alt.transcript
          alt.confidence idx with
      | some m0 =>
        rw [hm] at h
        cases h
        exact matchSingle_bound self normalizedTrigger alt.transcript
          alt.confidence idx _ hm
      | none =>
        rw [hm] at h
        exact ih m h

/-- Helper: every match returned by `match_trigger` — from the primary
transcript or from an alternative — is matched and within threshold. -/
theorem matchTrigger_bound (self : FuzzyWakeWordMatcher)
    (triggerPhrase transcript : String) (alternatives : List Alt)
    (m : TriggerMatch)
    (h : self.matchTrigger triggerPhrase transcript alternatives = some m) :
    m.matched = true ∧ m.distance ≤ self.threshold := by
  unfold FuzzyWakeWordMatcher.matchTrigger at h
  split at h
  · exact absurd h (by simp)
  · split at h
    · rename_i m0 heq
      cases h
      exact matchSingle_bound self (normalizeText triggerPhrase) transcript 1 0
        _ heq
    · split at h
      · exact tryAlternatives_bound self (normalizeText triggerPhrase) _ m h
      · exact absurd h (by simp)

/-- C6: whenever `match_trigger` returns a `TriggerMatch` (for any trigger
phrase, transcript and alternatives, with the matcher built from any
configured threshold), the match has `matched = true` and its Levenshtein
distance does not exceed the matcher's clamped threshold. -/
theorem C6_match_within_threshold (t : Int)
    (triggerPhrase transcript : String) (alternatives : List Alt)
    (m : TriggerMatch)
    (h : (mkMatcher t).matchTrigger triggerPhrase transcript alternatives
        = some m) :
    m.matched = true ∧ m.distance ≤ (mkMatcher t).threshold :=
  matchTrigger_bound (mkMatcher t) triggerPhrase transcript alternatives m h

/-- C6 witness: threshold 7 (clamped to 5) on a transcript beginning with the
exact trigger phrase. -/
theorem C6_witness :
    ({ matched := true, distance := 0, confidence := 1,
       matchedPhrase := "hey robot", matchStartPos := 0, matchEndPos := 9,
       commandText := "turn on lights", alternativeIndex := 0,
       triggerType := "" } : TriggerMatch).matched = true ∧
    ({ matched := true, distance := 0, confidence := 1,
       matchedPhrase := "hey robot", matchStartPos := 0, matchEndPos := 9,
       commandText := "turn on lights", alternativeIndex := 0,
       triggerType := "" } : TriggerMatch).distance ≤ (mkMatcher 7).threshold :=
  C6_match_within_threshold 7 "hey robot" "hey robot turn on lights" []
    { matched := true, distance := 0, confidence := 1,
      matchedPhrase := "hey robot", matchStartPos := 0, matchEndPos := 9,
      commandText := "turn on lights", alternativeIndex := 0, triggerType := "" }
    (by decide)

/-- C2 (code bug): on the `FuzzyWakeWordMatcher` docstring's own example —
trigger `"hey robot"`, primary transcript `"hey robotic turn on lights"`,
threshold 2, alternatives with the `0.95`-confidence exact trigger at index
1 — `match_trigger` returns the match from the primary transcript
(confidence `1.0`, `alternative_index 0`, matched phrase `"hey robotic"`),
because the primary is tried first and already matches within threshold; the
docstring and spec instead promise the `0.95` alternative
(`"hey robot"`, index 1). -/
theorem C2_primary_match_wins :
    (mkMatcher 2).matchTrigger "hey robot" "hey robotic turn on lights"
        docstringAlternatives =
      some { matched := true, distance := 2, confidence := 1,
             matchedPhrase := "hey robotic", matchStartPos := 0,
             matchEndPos := 11, commandText := "turn on lights",
             alternativeIndex := 0, triggerType := "" } ∧
    (1 : ℚ) ≠ 19/20 ∧ (0 : Nat) ≠ 1 := by
  refine ⟨by decide, by norm_num, by decide⟩

/-- Helper: emitting a non-empty chunk list always yields an utterance. -/
theorem emitUtterance_isSome (chunks : List AudioChunk) (a b : ℚ)
    (h : chunks ≠ []) : (emitUtterance chunks a b).isSome = true := by
  simp [emitUtterance, h]

/-- Helper: the `speaking` case of `_detect_loop` written out as a single
conditional. -/
theorem detectStep_speaking (s l : ℚ) (pb uc : List AudioChunk)
    (chunk : AudioChunk) (isSpeech : Bool) :
    detectStep ⟨SegMode.speaking s l, pb, uc⟩ chunk isSpeech =
      if silenceTimeout ≤ chunk.timestamp -
            (if isSpeech then chunk.timestamp else l) ∨
          maxSpeechDuration ≤ chunk.timestamp - s then
        (⟨SegMode.idle, [], []⟩,
          emitUtterance (uc ++ [chunk]) s chunk.timestamp)
      else
        (⟨SegMode.speaking s (if isSpeech then chunk.timestamp else l), pb,
            uc ++ [chunk]⟩, none) := rfl

/-- C5: in the `speaking` state, a processed chunk closes the utterance and
returns the FSM to idle (with the padding buffer cleared) exactly when the
trailing silence — measured from the just-updated `last_speech_time` —
reaches `SILENCE_TIMEOUT` or the elapsed segment reaches
`MAX_SPEECH_DURATION`; otherwise the state stays `speaking` and nothing is
emitted. -/
theorem C5_speaking_emit_iff (st : SegState)
    (speechStartTime lastSpeechTime : ℚ) (chunk : AudioChunk)
    (isSpeech : Bool)
    (h : st.mode = SegMode.speaking speechStartTime lastSpeechTime) :
    ((detectStep st chunk isSpeech).2.isSome = true ∧
        (detectStep st chunk isSpeech).1.mode = SegMode.idle ∧
        (detectStep st chunk isSpeech).1.paddingBuffer = [] ↔
      silenceTimeout ≤ chunk.timestamp -
          (if isSpeech then chunk.timestamp else lastSpeechTime) ∨
        maxSpeechDuration ≤ chunk.timestamp - speechStartTime) ∧
    (¬(silenceTimeout ≤ chunk.timestamp -
          (if isSpeech then chunk.timestamp else lastSpeechTime) ∨
        maxSpeechDuration ≤ chunk.timestamp - speechStartTime) →
      (detectStep st chunk isSpeech).1.mode =
          SegMode.speaking speechStartTime
            (if isSpeech then chunk.timestamp else lastSpeechTime) ∧
        (detectStep st chunk isSpeech).2 = none) := by
  obtain ⟨mode, pb, uc⟩ := st
  dsimp only at h
  subst h
  rw [detectStep_speaking]
  by_cases hc :
      silenceTimeout ≤ chunk.timestamp -
          (if isSpeech then chunk.timestamp else lastSpeechTime) ∨
        maxSpeechDuration ≤ chunk.timestamp - speechStartTime
  · rw [if_pos hc]
    constructor
    · rw [iff_true_right hc]
      exact ⟨emitUtterance_isSome (uc ++ [chunk]) speechStartTime
        chunk.timestamp (by simp), rfl, rfl⟩
    · intro hn
      exact absurd hc hn
  · rw [if_neg hc]
    constructor
    · simp [hc]
    · intro _
      exact ⟨rfl, rfl⟩

/-- C5 witness: a speaking-state segmenter whose last speech was at time 0
receives a silent chunk at time 1 — the 0.8 s silence timeout has elapsed, so
an utterance is emitted, the state returns to idle, and the padding buffer is
cleared. -/
theorem C5_witness :
    (detectStep ⟨SegMode.speaking 0 0, [chunkA], [chunkA]⟩ chunkB
        false).2.isSome = true ∧
    (detectStep ⟨SegMode.speaking 0 0, [chunkA], [chunkA]⟩ chunkB
        false).1.mode = SegMode.idle ∧
    (detectStep ⟨SegMode.speaking 0 0, [chunkA], [chunkA]⟩ chunkB
        false).1.paddingBuffer = [] := by
  have h := C5_speaking_emit_iff ⟨SegMode.speaking 0 0, [chunkA], [chunkA]⟩
    0 0 chunkB false rfl
  exact h.1.mpr (Or.inl (by norm_num [chunkB, silenceTimeout]))

/-- C10: whenever `_check_fuzzy_triggers` produces a match of any category,
`_handle_trigger_match` unconditionally clears the one-shot armed trigger —
even when the arm was set for a different category than the one that matched
(with continuous listen on, a `say` match clears a `command` arm, and since
the matched type is not `command`, the armed category fires nothing: the
command buffer is untouched). -/
theorem C10_any_match_clears_arm (cfg : SpeechConfig) (st : SpeechState)
    (heard : String) (alternatives : List Alt) (m : TriggerMatch)
    (h : checkFuzzyTriggers cfg st heard alternatives = some m) :
    (handleTriggerMatch cfg m st).1.triggerActive = false ∧
    (m.triggerType ≠ "command" →
      (handleTriggerMatch cfg m st).1.commandList = st.commandList) := by
  constructor
  · unfold handleTriggerMatch
    repeat' split
    all_goals rfl
  · intro hne
    unfold handleTriggerMatch
    repeat' split
    all_goals first
      | rfl
      | simp_all

/-- C10 witness: with continuous listen on and a one-shot `command` arm set,
the transcript "robot say hello" fuzzy-matches the `say` trigger; handling
the match clears the arm and inserts nothing into the command buffer, so the
armed `command` category was consumed without firing. -/
theorem C10_witness :
    (handleTriggerMatch defaultTriggerConfig
        { matched := true, distance := 0, confidence := 1,
          matchedPhrase := "robot say", matchStartPos := 0, matchEndPos := 9,
          commandText := "hello", alternativeIndex := 0, triggerType := "say" }
        armedCommandState).1.triggerActive = false ∧
    (handleTriggerMatch defaultTriggerConfig
        { matched := true, distance := 0, confidence := 1,
          matchedPhrase := "robot say", matchStartPos := 0, matchEndPos := 9,
          commandText := "hello", alternativeIndex := 0, triggerType := "say" }
        armedCommandState).1.commandList = armedCommandState.commandList := by
  have h := C10_any_match_clears_arm defaultTriggerConfig armedCommandState
    "robot say hello" []
    { matched := true, distance := 0, confidence := 1,
      matchedPhrase := "robot say", matchStartPos := 0, matchEndPos := 9,
      commandText := "hello", alternativeIndex := 0, triggerType := "say" }
    (by decide)
  exact ⟨h.1, h.2 (by decide)⟩

/-- C3 counterexample: fuzzy matching enabled (threshold 2), continuous
listen on, `listen_trigger_all` on, transcript `"turn on the lights"`
matching no trigger category — `listen_callback` inserts nothing into the
command buffer (it returns right after the fuzzy check), contradicting the
claim that the entire transcript is inserted. -/
theorem C3_counterexample :
    checkFuzzyTriggers defaultTriggerConfig emptyDispatchState
        "turn on the lights" [] = none ∧
    (listenCallbackFuzzy defaultTriggerConfig emptyDispatchState
        "turn on the lights" []).1.commandList = [] ∧
    (listenCallbackFuzzy defaultTriggerConfig emptyDispatchState
        "turn on the lights" []).1.commandList ≠ ["turn on the lights"] := by
  refine ⟨by decide, by decide, by decide⟩

/-- C3 (amended): while fuzzy matching is enabled, a non-empty transcript
that matches no trigger category is NOT inserted by `listen_callback` — the
state is returned unchanged even with continuous listen and
`listen_trigger_all` on; the full-transcript `listen_trigger_all` insertion
only happens on the regex paths, e.g. in `vosk_vad_callback`, whose fuzzy
miss falls through to the regex dispatch and (when no regex trigger or arm
fires either) inserts the whole transcript unstripped. -/
theorem C3_fuzzy_miss_inserts_nothing (cfg : SpeechConfig) (st : SpeechState)
    (heard : String) (alternatives : List Alt)
    (hne : heard ≠ "") (hsl : cfg.shouldListen = true)
    (hall : cfg.listenTriggerAll = true)
    (hfz : checkFuzzyTriggers cfg st heard alternatives = none)
    (hfz0 : checkFuzzyTriggers cfg st heard [] = none)
    (hsay : regexTriggerFound cfg.triggerSay heard = false)
    (hcom : regexTriggerFound cfg.triggerCompletion heard = false)
    (hcmd : regexTriggerFound cfg.triggerCommand heard = false)
    (hta : st.triggerActive = false) :
    listenCallbackFuzzy cfg st heard alternatives = (st, []) ∧
    (voskVadCallback cfg true st heard).1.commandList =
      insertCommand cfg.bufLen heard st.commandList := by
  constructor
  · unfold listenCallbackFuzzy
    rw [if_pos hne, hfz]
  · unfold voskVadCallback
    have hb : (decide (heard ≠ "") && true) = true := by simp [hne]
    rw [if_pos hb, hfz0]
    unfold regexDispatch
    rw [if_pos hne]
    simp [hsay, hcom, hcmd, hta, hsl, hall]

/-- C3 witness for the amended theorem: the concrete no-match scenario — the
background-listen callback leaves the state untouched, while the Vosk
callback's regex fallback inserts the full transcript. -/
theorem C3_witness :
    listenCallbackFuzzy defaultTriggerConfig emptyDispatchState
        "turn on the lights" [] = (emptyDispatchState, []) ∧
    (voskVadCallback defaultTriggerConfig true emptyDispatchState
        "turn on the lights").1.commandList =
      insertCommand defaultTriggerConfig.bufLen "turn on the lights"
        emptyDispatchState.commandList := by
  have h := C3_fuzzy_miss_inserts_nothing defaultTriggerConfig
    emptyDispatchState "turn on the lights" [] (by decide) (by decide)
    (by decide) (by decide) (by decide) (by decide) (by decide) (by decide)
    (by decide)
  exact h

/-- C9 witness: a static-threshold VAD (threshold 300, dynamic off) on a
chunk of energy 450 yields confidence exactly 1. -/
theorem C9_witness :
    (EnergyVAD.processEnergy
        { threshold := 300, dynamic := false } 450).2.confidence = 0 ∨
    (EnergyVAD.processEnergy
        { threshold := 300, dynamic := false } 450).2.confidence = 1 :=
  C9_confidence_zero_or_one { threshold := 300, dynamic := false } 450 (by decide)

end Speech
